import Mathlib

/-!
Verification of the monthly reporting and insights engine of the
expense-tracker backend (Flask + PostgreSQL).  The definitions below are a
shallow embedding of the code in `src/validators.py` and
`src/blueprints/reports.py`: SQL queries over the `expenses`, `income` and
`categories` tables become list filters over an explicit `Ledger` value,
Python `Decimal` values become exact rationals, and `date` values become a
`Date` structure ordered lexicographically, exactly as PostgreSQL orders
`DATE` columns.
-/

namespace ExpenseTracker

/-! ## Calendar arithmetic (embedding of `datetime.date` and `calendar`) -/

/-- Gregorian leap-year rule, as used by Python `calendar.isleap`. -/
def isLeap (y : Nat) : Bool :=
  (y % 4 == 0 && y % 100 != 0) || y % 400 == 0

/-- Day count of month `m` of year `y` (28/29/30/31), as returned by
Python `calendar.monthrange(y, m)[1]` for `1 <= m <= 12`. -/
def daysInMonth (y m : Nat) : Nat :=
  if m == 2 then (if isLeap y then 29 else 28)
  else if m == 4 || m == 6 || m == 9 || m == 11 then 30
  else 31

/-- A calendar date, the embedding of Python `datetime.date` and of the SQL
`DATE` column type. -/
structure Date where
  year : Nat
  month : Nat
  day : Nat
deriving DecidableEq, Repr

/-- Lexicographic comparison of dates; this is how both Python `date` values
and PostgreSQL `DATE` values compare. -/
def Date.ble (a b : Date) : Bool :=
  decide (a.year < b.year ∨ (a.year = b.year ∧
    (a.month < b.month ∨ (a.month = b.month ∧ a.day ≤ b.day))))

/-- Strict lexicographic comparison of dates. -/
def Date.blt (a b : Date) : Bool :=
  decide (a.year < b.year ∨ (a.year = b.year ∧
    (a.month < b.month ∨ (a.month = b.month ∧ a.day < b.day))))

/-- Previous calendar day, the embedding of `d - timedelta(days=1)` on valid
dates. -/
def Date.pred (d : Date) : Date :=
  if 1 < d.day then ⟨d.year, d.month, d.day - 1⟩
  else if 1 < d.month then ⟨d.year, d.month - 1, daysInMonth d.year (d.month - 1)⟩
  else ⟨d.year - 1, 12, 31⟩

/-- SQL range condition `date >= start AND date <= end` used by every report
query. -/
def inRange (s e d : Date) : Bool :=
  Date.ble s d && Date.ble d e

/-! ## Month token validation (embedding of `validators.py`) -/

/-- Numeric value of a digit character. -/
def digitVal (c : Char) : Nat := c.toNat - 48

/-- Digit character test, equivalent to the `\d` character class on the
ASCII strings involved: code point between 48 and 57. -/
def isDigitC (c : Char) : Bool := 48 ≤ c.toNat && c.toNat ≤ 57

/-- Embedding of `MONTH_REGEX = ^\d{4}-(0[1-9]|1[0-2])$` from
`validators.py`: four digits, a dash, then `01`..`12`. -/
def monthRegexMatch (s : String) : Bool :=
  match s.toList with
  | [y1, y2, y3, y4, d, m1, m2] =>
    isDigitC y1 && isDigitC y2 && isDigitC y3 && isDigitC y4 && d == '-' &&
      ((m1 == '0' && 49 ≤ m2.toNat && m2.toNat ≤ 57) ||
       (m1 == '1' && 48 ≤ m2.toNat && m2.toNat ≤ 50))
  | _ => false

/-- Numeric year and month of a `YYYY-MM` token, the embedding of
`map(int, month_string.split('-'))` on tokens of that shape. -/
def parseMonthToken (s : String) : Option (Nat × Nat) :=
  match s.toList with
  | [y1, y2, y3, y4, d, m1, m2] =>
    if isDigitC y1 && isDigitC y2 && isDigitC y3 && isDigitC y4 && d == '-' &&
        isDigitC m1 && isDigitC m2 then
      some (((digitVal y1 * 10 + digitVal y2) * 10 + digitVal y3) * 10 + digitVal y4,
            digitVal m1 * 10 + digitVal m2)
    else none
  | _ => none

/-- Embedding of `validate_month` from `validators.py`: the regex test
followed by `datetime.strptime(month_string, '%Y-%m')`.  On a
regex-matching token `strptime` succeeds exactly when the year is at least
`datetime.MINYEAR = 1` (a four-digit year can never exceed
`datetime.MAXYEAR = 9999`). -/
def validate_month (s : String) : Bool :=
  monthRegexMatch s &&
    (match parseMonthToken s with
     | some (y, _) => 1 ≤ y
     | none => false)

/-- Embedding of `get_month_date_range` from `validators.py` on the numeric
year and month of a pre-validated token: the first day of the month, and the
first day of the next month minus one day. -/
def get_month_date_range (y m : Nat) : Date × Date :=
  let startDate : Date := ⟨y, m, 1⟩
  let nextMonthYear := if m == 12 then y + 1 else y
  let nextMonth := if m == 12 then 1 else m + 1
  (startDate, Date.pred ⟨nextMonthYear, nextMonth, 1⟩)

/-- Spec-side reading of the claim: the token matches
`^\d{4}-(0[1-9]|1[0-2])$`.  Written from the words of the claim, to be
compared with the source-side `validate_month`. -/
def specMonthPattern (s : String) : Bool :=
  match s.toList with
  | [y1, y2, y3, y4, d, m1, m2] =>
    isDigitC y1 && isDigitC y2 && isDigitC y3 && isDigitC y4 && d == '-' &&
      ((m1 == '0' && 49 ≤ m2.toNat && m2.toNat ≤ 57) ||
       (m1 == '1' && 48 ≤ m2.toNat && m2.toNat ≤ 50))
  | _ => false

/-- Spec-side reading of the claim: the token parses as a real calendar
month, that is a year within the `datetime` range `1..9999` and a month
`1..12`. -/
def specRealCalendarMonth (s : String) : Bool :=
  match parseMonthToken s with
  | some (y, m) => 1 ≤ y && y ≤ 9999 && 1 ≤ m && m ≤ 12
  | none => false

/-! ## Money (embedding of Python `Decimal` handling in `validators.py`)

Monetary values are modelled as exact rationals: `Decimal` arithmetic on
the values produced by these endpoints (sums, differences and divisions of
two-decimal-place amounts within the 28-digit default context) is exact
decimal arithmetic, never binary floating point. -/

/-- Quantization of a decimal value to a whole number of cents with the
`ROUND_HALF_UP` rounding mode of `validators.py` (ties away from zero), as
performed by `amount.quantize(Decimal('0.01'), rounding=ROUND_HALF_UP)`. -/
def roundHalfUpCents (q : ℚ) : ℤ :=
  if 0 ≤ q then ⌊q * 100 + 1 / 2⌋ else -⌊-(q * 100) + 1 / 2⌋

/-- Fuel-bounded little-endian base-10 digit list; `natDigitsAux n n`
terminates because a positive number shrinks under division by ten. -/
def natDigitsAux : Nat → Nat → List Nat
  | 0, _ => []
  | fuel + 1, n => if n == 0 then [] else n % 10 :: natDigitsAux fuel (n / 10)

/-- Little-endian base-10 digits of a natural number (empty for zero). -/
def natDigits (n : Nat) : List Nat := natDigitsAux n n

/-- Decimal rendering of a natural number, the embedding of Python `str`
on a nonnegative integer. -/
def renderNat (n : Nat) : List Char :=
  if n == 0 then ['0'] else (natDigits n).reverse.map Nat.digitChar

/-- Two-digit zero-padded rendering, used for the fractional part of a
quantized amount (always exactly two digits in `str(Decimal)` output). -/
def pad2 (n : Nat) : List Char := [Nat.digitChar (n / 10), Nat.digitChar (n % 10)]

/-- Embedding of `format_amount` from `validators.py`: quantize to two
decimal places with `ROUND_HALF_UP` and render as a fixed two-decimal
string. -/
def format_amount (q : ℚ) : String :=
  let c := roundHalfUpCents q
  (if c < 0 then "-" else "") ++
    String.mk (renderNat (c.natAbs / 100)) ++ "." ++ String.mk (pad2 (c.natAbs % 100))

/-- Canonical two-decimal-place rendering of a whole number of cents; the
strings of the money round-trip claim are exactly `centsString n` for a
positive cent count `n`. -/
def centsString (n : Nat) : String :=
  String.mk (renderNat (n / 100)) ++ "." ++ String.mk (pad2 (n % 100))

/-- Numeric value of a run of digit characters (most significant first). -/
def digitsVal (cs : List Char) : Nat :=
  cs.foldl (fun a c => a * 10 + digitVal c) 0

/-- Value and fractional-digit count of a plain decimal literal (optional
sign, digits, optional point), the embedding of the `Decimal` constructor
together with `as_tuple().exponent` on the literal forms relevant here;
scientific notation and the special values rejected by `is_finite` are not
modelled. -/
def parseDecChars (cs : List Char) : Option (ℚ × Nat) :=
  let sgn : ℚ := if cs.head? = some '-' then -1 else 1
  let rest : List Char :=
    if cs.head? = some '-' ∨ cs.head? = some '+' then cs.tail else cs
  let intPart := rest.takeWhile isDigitC
  let rest2 := rest.dropWhile isDigitC
  if rest2 = [] then
    (if intPart = [] then none else some (sgn * (digitsVal intPart : ℚ), 0))
  else if rest2.head? = some '.' ∧ rest2.tail.all isDigitC = true ∧
      ¬(intPart = [] ∧ rest2.tail = []) then
    some (sgn * ((digitsVal intPart : ℚ)
      + (digitsVal rest2.tail : ℚ) / 10 ^ rest2.tail.length), rest2.tail.length)
  else none

/-- Embedding of `validate_amount` from `validators.py` on string input:
parse the (stripped) decimal literal, reject non-positive values, reject
more than two fractional digits (`as_tuple().exponent < -2`), then quantize
to exactly two decimal places. -/
def validate_amount (s : String) : Option ℚ :=
  match parseDecChars s.toList with
  | none => none
  | some (q, fracDigits) =>
    if q ≤ 0 then none
    else if 2 < fracDigits then none
    else some ((roundHalfUpCents q : ℚ) / 100)

/-! ## Ledger data model

The row shapes follow the tables used by the blueprints: `expenses` rows
carry `user_id` (inserted by `blueprints/expenses.py` for isolation),
`date`, `amount`, `split_amount` and `category_id`; `income` rows carry
`user_id`, `date` and `amount`; `categories` rows carry `id`, `user_id`,
`name` and `is_active`.  Identifiers are opaque and modelled as naturals. -/

structure ExpenseRow where
  userId : Nat
  date : Date
  amount : ℚ
  splitAmount : ℚ
  categoryId : Nat
deriving DecidableEq

structure IncomeRow where
  userId : Nat
  date : Date
  amount : ℚ
deriving DecidableEq

structure Category where
  id : Nat
  userId : Nat
  name : String
  isActive : Bool
deriving DecidableEq

/-- The database state read by the reporting engine. -/
structure Ledger where
  expenses : List ExpenseRow
  income : List IncomeRow
  categories : List Category
deriving DecidableEq

/-- Expense rows satisfying `date >= start AND date <= end`; note that the
report queries of `blueprints/reports.py` place no `user_id` condition in
their `WHERE` clauses. -/
def expensesInRange (l : Ledger) (s e : Date) : List ExpenseRow :=
  l.expenses.filter (fun r => inRange s e r.date)

/-- Income rows satisfying `date >= start AND date <= end`. -/
def incomeInRange (l : Ledger) (s e : Date) : List IncomeRow :=
  l.income.filter (fun r => inRange s e r.date)

/-- SQL `COALESCE(SUM(amount), 0)` over expense rows. -/
def sumAmounts (rows : List ExpenseRow) : ℚ := (rows.map (fun r => r.amount)).sum

/-- SQL `COALESCE(SUM(split_amount), 0)` over expense rows. -/
def sumSplits (rows : List ExpenseRow) : ℚ := (rows.map (fun r => r.splitAmount)).sum

/-- SQL `COALESCE(SUM(amount), 0)` over income rows. -/
def sumIncome (rows : List IncomeRow) : ℚ := (rows.map (fun r => r.amount)).sum

/-- SQL `COALESCE(MIN(x), 0)` over a bag of values. -/
def sqlMin : List ℚ → ℚ
  | [] => 0
  | a :: t => t.foldl min a

/-- SQL `COALESCE(MAX(x), 0)` over a bag of values. -/
def sqlMax : List ℚ → ℚ
  | [] => 0
  | a :: t => t.foldl max a

/-! ## Sorting (model of SQL `ORDER BY`) -/

/-- Insertion of an element into a list, keeping it in front of the first
element it compares at-or-before. -/
def insertBy (le : α → α → Bool) (x : α) : List α → List α
  | [] => [x]
  | y :: t => if le x y then x :: y :: t else y :: insertBy le x t

/-- Insertion sort by a boolean comparison; models SQL `ORDER BY` (order
among ties is unspecified by the source and acceptable in either order). -/
def sortBy (le : α → α → Bool) : List α → List α
  | [] => []
  | x :: t => insertBy le x (sortBy le t)

/-! ## Monthly summary aggregator (`monthly_summary` in `reports.py`) -/

/-- Numeric content of the monthly summary: the single expense-statistics
query, the income-statistics query, and the derived `Decimal` values
computed in Python. -/
structure SummaryRaw where
  expenseCount : Nat
  totalExpense : ℚ
  totalSplit : ℚ
  averageAmount : ℚ
  minAmount : ℚ
  maxAmount : ℚ
  incomeCount : Nat
  totalIncome : ℚ
  netSpending : ℚ
  netBalance : ℚ
  savingsRate : ℚ
deriving DecidableEq

/-- Embedding of the aggregation core of `monthly_summary`: one pass over
the expense rows in range and one over the income rows in range, then the
derived net-spending, net-balance and savings-rate values. -/
def monthly_summary_raw (l : Ledger) (s e : Date) : SummaryRaw :=
  let exps := expensesInRange l s e
  let incs := incomeInRange l s e
  let totalExpense := sumAmounts exps
  let totalSplit := sumSplits exps
  let totalIncome := sumIncome incs
  let netSpending := totalExpense - totalSplit
  let netBalance := totalIncome - netSpending
  { expenseCount := exps.length
    totalExpense := totalExpense
    totalSplit := totalSplit
    averageAmount := if exps.length == 0 then 0 else totalExpense / (exps.length : ℚ)
    minAmount := sqlMin (exps.map (fun r => r.amount))
    maxAmount := sqlMax (exps.map (fun r => r.amount))
    incomeCount := incs.length
    totalIncome := totalIncome
    netSpending := netSpending
    netBalance := netBalance
    savingsRate := if 0 < totalIncome then netBalance / totalIncome * 100 else 0 }

/-- The JSON shape returned by `GET /reports/monthly-summary` (the raw
month token echo is carried by the resolved dates). -/
structure SummaryReport where
  start_date : Date
  end_date : Date
  expense_count : Nat
  total_expense : String
  total_owed : String
  net_spending : String
  average_expense : String
  min_expense : String
  max_expense : String
  income_count : Nat
  total_income : String
  net_balance : String
  savings_rate : String
deriving DecidableEq

/-- Embedding of the `monthly_summary` endpoint: month validation, date
range resolution, aggregation, response shaping.  `none` models the 400
error response for an invalid month. -/
def monthly_summary (l : Ledger) (month : String) : Option SummaryReport :=
  if validate_month month then
    match parseMonthToken month with
    | some (y, m) =>
      let r := get_month_date_range y m
      let raw := monthly_summary_raw l r.1 r.2
      some { start_date := r.1
             end_date := r.2
             expense_count := raw.expenseCount
             total_expense := format_amount raw.totalExpense
             total_owed := format_amount raw.totalSplit
             net_spending := format_amount raw.netSpending
             average_expense := format_amount raw.averageAmount
             min_expense := format_amount raw.minAmount
             max_expense := format_amount raw.maxAmount
             income_count := raw.incomeCount
             total_income := format_amount raw.totalIncome
             net_balance := format_amount raw.netBalance
             savings_rate := format_amount raw.savingsRate }
    | none => none
  else none

/-! ## Category breakdown aggregator (`category_breakdown` in `reports.py`) -/

/-- Numeric content of one category row of the breakdown. -/
structure BreakdownRowRaw where
  category_id : Nat
  category_name : String
  transaction_count : Nat
  total_amount : ℚ
  percentage : ℚ
deriving DecidableEq

/-- Expense rows joined to a category by the `LEFT JOIN` condition
`c.id = e.category_id AND e.date >= start AND e.date <= end`. -/
def matchingExpenses (l : Ledger) (s e : Date) (cid : Nat) : List ExpenseRow :=
  (expensesInRange l s e).filter (fun r => decide (r.categoryId = cid))

/-- The grand total of the breakdown: `COALESCE(SUM(amount), 0)` over all
expenses in range, with no category condition at all. -/
def category_breakdown_total (l : Ledger) (s e : Date) : ℚ :=
  sumAmounts (expensesInRange l s e)

/-- Embedding of the category rows of `category_breakdown`: one row per
active category (`WHERE c.is_active = TRUE ... GROUP BY c.id, c.name`),
ordered by `total_amount DESC` in SQL, with percentages attached by the
Python loop afterwards. -/
def category_breakdown_rows (l : Ledger) (s e : Date) : List BreakdownRowRaw :=
  let total := category_breakdown_total l s e
  let grouped := (l.categories.filter (fun c => c.isActive)).map (fun c =>
    { category_id := c.id
      category_name := c.name
      transaction_count := (matchingExpenses l s e c.id).length
      total_amount := sumAmounts (matchingExpenses l s e c.id)
      percentage := 0 : BreakdownRowRaw })
  let ordered := sortBy (fun a b => decide (b.total_amount ≤ a.total_amount)) grouped
  ordered.map (fun row =>
    { row with percentage := if 0 < total then row.total_amount / total * 100 else 0 })

/-- One formatted category row of the breakdown response. -/
structure BreakdownRowReport where
  category_id : Nat
  category_name : String
  transaction_count : Nat
  total_amount : String
  percentage : String
deriving DecidableEq

/-- The JSON shape returned by `GET /reports/category-breakdown`. -/
structure BreakdownReport where
  start_date : Date
  end_date : Date
  total_amount : String
  categories : List BreakdownRowReport
deriving DecidableEq

/-- Embedding of the `category_breakdown` endpoint. -/
def category_breakdown (l : Ledger) (month : String) : Option BreakdownReport :=
  if validate_month month then
    match parseMonthToken month with
    | some (y, m) =>
      let r := get_month_date_range y m
      some { start_date := r.1
             end_date := r.2
             total_amount := format_amount (category_breakdown_total l r.1 r.2)
             categories := (category_breakdown_rows l r.1 r.2).map (fun row =>
               { category_id := row.category_id
                 category_name := row.category_name
                 transaction_count := row.transaction_count
                 total_amount := format_amount row.total_amount
                 percentage := format_amount row.percentage }) }
    | none => none
  else none

/-! ## Daily trend aggregator (`daily_trend` in `reports.py`) -/

/-- Numeric content of one row of the daily trend. -/
structure TrendRowRaw where
  date : Date
  transaction_count : Nat
  daily_total : ℚ
  running_total : ℚ
deriving DecidableEq

/-- Embedding of the grouped query `SELECT date, COUNT(*), SUM(amount)
... GROUP BY date ORDER BY date ASC`: the distinct dates of the expenses in
range, in ascending order, each with its row count and amount sum. -/
def daily_groups (l : Ledger) (s e : Date) : List (Date × Nat × ℚ) :=
  let exps := expensesInRange l s e
  (sortBy Date.ble ((exps.map (fun r => r.date)).dedup)).map (fun d =>
    let dayRows := exps.filter (fun r => decide (r.date = d))
    (d, dayRows.length, sumAmounts dayRows))

/-- Embedding of the Python running-total loop of `daily_trend`; returns
the final value of the `running_total` accumulator together with the rows
built in chronological order. -/
def daily_trend_loop (acc : ℚ) : List (Date × Nat × ℚ) → ℚ × List TrendRowRaw
  | [] => (acc, [])
  | g :: t =>
    let rt := acc + g.2.2
    let rest := daily_trend_loop rt t
    (rest.1, ⟨g.1, g.2.1, g.2.2, rt⟩ :: rest.2)

/-- The daily trend rows for a range. -/
def daily_trend_rows (l : Ledger) (s e : Date) : List TrendRowRaw :=
  (daily_trend_loop 0 (daily_groups l s e)).2

/-- The period total reported by `daily_trend`: the final value of the
running-total accumulator. -/
def daily_trend_total (l : Ledger) (s e : Date) : ℚ :=
  (daily_trend_loop 0 (daily_groups l s e)).1

/-- One formatted row of the daily trend response. -/
structure TrendRowReport where
  date : Date
  transaction_count : Nat
  daily_total : String
  running_total : String
deriving DecidableEq

/-- The JSON shape returned by `GET /reports/daily-trend`. -/
structure DailyTrendReport where
  start_date : Date
  end_date : Date
  total_amount : String
  days_with_expenses : Nat
  daily_data : List TrendRowReport
deriving DecidableEq

/-- Embedding of the `daily_trend` endpoint. -/
def daily_trend (l : Ledger) (month : String) : Option DailyTrendReport :=
  if validate_month month then
    match parseMonthToken month with
    | some (y, m) =>
      let r := get_month_date_range y m
      let rows := daily_trend_rows l r.1 r.2
      some { start_date := r.1
             end_date := r.2
             total_amount := format_amount (daily_trend_total l r.1 r.2)
             days_with_expenses := rows.length
             daily_data := rows.map (fun row =>
               { date := row.date
                 transaction_count := row.transaction_count
                 daily_total := format_amount row.daily_total
                 running_total := format_amount row.running_total }) }
    | none => none
  else none

/-! ## Insights aggregator (`get_insights` in `reports.py`) -/

/-- Numeric content of the insights response.  The category-comparison
list of the endpoint concerns no claim and is not modelled; the one-decimal
float rounding applied to `total_difference_percent` at the JSON layer is
likewise left at the exact value. -/
structure InsightsRaw where
  daily_average : ℚ
  projected_total : ℚ
  days_passed : Nat
  days_in_month : Nat
  current_total : ℚ
  prev_month_total : ℚ
  total_difference_percent : ℚ
deriving DecidableEq

/-- Embedding of `get_insights` with the current date injected: day-count
logic (`today.day` inside the target month, `days_in_month` after it, a
defensive `1` otherwise), the current and previous month totals, and the
linear projection. -/
def get_insights_raw (l : Ledger) (today : Date) (y m : Nat) : InsightsRaw :=
  let r := get_month_date_range y m
  let dim := daysInMonth y m
  let dp : Nat :=
    if today.year == y && today.month == m then today.day
    else if Date.blt ⟨y, m, dim⟩ today then dim
    else 1
  let currentTotal := sumAmounts (expensesInRange l r.1 r.2)
  let pm := Date.pred ⟨y, m, 1⟩
  let pr := get_month_date_range pm.year pm.month
  let prevTotal := sumAmounts (expensesInRange l pr.1 pr.2)
  let dailyAvg := if 0 < dp then currentTotal / (dp : ℚ) else 0
  { daily_average := dailyAvg
    projected_total := dailyAvg * (dim : ℚ)
    days_passed := dp
    days_in_month := dim
    current_total := currentTotal
    prev_month_total := prevTotal
    total_difference_percent :=
      if 0 < prevTotal then (currentTotal - prevTotal) / prevTotal * 100 else 0 }

/-! ## N-month trend aggregator (`get_trends` in `reports.py`) -/

/-- Numeric content of one entry of the N-month trend. -/
structure TrendEntryRaw where
  year : Nat
  month : Nat
  income : ℚ
  expenses : ℚ
  savings : ℚ
  savings_rate : ℚ
deriving DecidableEq

/-- One step of the backward month walk of `get_trends`: decrement the
month, rolling the year at January. -/
def monthBack : Nat × Nat → Nat × Nat
  | (y, m) => if m == 1 then (y - 1, 12) else (y, m - 1)

/-- Embedding of the query loop of `get_trends`: starting from the given
month, walk backward, computing income, expenses, savings and savings rate
for each visited month. -/
def get_trends_loop (l : Ledger) : Nat × Nat → Nat → List TrendEntryRaw
  | _, 0 => []
  | ym, n + 1 =>
    let r := get_month_date_range ym.1 ym.2
    let exp := sumAmounts (expensesInRange l r.1 r.2)
    let inc := sumIncome (incomeInRange l r.1 r.2)
    { year := ym.1
      month := ym.2
      income := inc
      expenses := exp
      savings := inc - exp
      savings_rate := if 0 < inc then (inc - exp) / inc * 100 else 0 }
      :: get_trends_loop l (monthBack ym) n

/-- Default of the `months` query parameter of `GET /reports/trends`. -/
def trends_default_months : Nat := 6

/-- Embedding of `get_trends`: walk backward from the current calendar
month `count` times, then reverse into oldest-to-newest order.  The source
applies no upper bound to `count`. -/
def get_trends (l : Ledger) (today : Date) (count : Nat) : List TrendEntryRaw :=
  (get_trends_loop l (today.year, today.month) count).reverse

/-! ## Concrete ledgers used by scenario conjuncts and witnesses -/

/-- An empty database. -/
def emptyLedger : Ledger := ⟨[], [], []⟩

/-- A database holding a single expense that belongs to user 2. -/
def otherOwnerLedger : Ledger :=
  ⟨[{ userId := 2, date := ⟨2024, 1, 15⟩, amount := 10, splitAmount := 0, categoryId := 7 }],
   [], []⟩

/-- The summary scenario of the spec: expenses 10.00 and 20.00 with split
total 5.00, income 50.00, all in January 2024. -/
def summaryScenarioLedger : Ledger :=
  ⟨[{ userId := 1, date := ⟨2024, 1, 5⟩, amount := 10, splitAmount := 5, categoryId := 7 },
    { userId := 1, date := ⟨2024, 1, 10⟩, amount := 20, splitAmount := 0, categoryId := 7 }],
   [{ userId := 1, date := ⟨2024, 1, 3⟩, amount := 50 }], []⟩

/-- The insights scenario of the spec: a single 100.00 expense in June
2024 (a 30-day month). -/
def insightsScenarioLedger : Ledger :=
  ⟨[{ userId := 1, date := ⟨2024, 6, 5⟩, amount := 100, splitAmount := 0, categoryId := 7 }],
   [], []⟩

/-- A ledger with one active category and one expense in it. -/
def breakdownWitnessLedger : Ledger :=
  ⟨[{ userId := 1, date := ⟨2024, 1, 5⟩, amount := 10, splitAmount := 0, categoryId := 7 }],
   [], [{ id := 7, userId := 1, name := "Food", isActive := true }]⟩

/-- A ledger in which one in-range expense belongs to an inactive
category, so that the listed breakdown percentages cannot reach 100. -/
def unlistedSpendLedger : Ledger :=
  ⟨[{ userId := 1, date := ⟨2024, 1, 5⟩, amount := 10, splitAmount := 0, categoryId := 7 },
    { userId := 1, date := ⟨2024, 1, 6⟩, amount := 5, splitAmount := 0, categoryId := 9 }],
   [],
   [{ id := 7, userId := 1, name := "Food", isActive := true },
    { id := 9, userId := 1, name := "Legacy", isActive := false }]⟩

/-! ## Sorting lemmas -/

theorem perm_insertBy (le : α → α → Bool) (x : α) (l : List α) :
    List.Perm (insertBy le x l) (x :: l) := by
  induction l with
  | nil => exact List.Perm.refl _
  | cons y t ih =>
    simp only [insertBy]
    split
    · exact List.Perm.refl _
    · exact (ih.cons y).trans (List.Perm.swap x y t)

theorem perm_sortBy (le : α → α → Bool) (l : List α) : List.Perm (sortBy le l) l := by
  induction l with
  | nil => exact List.Perm.refl _
  | cons x t ih => exact (perm_insertBy le x (sortBy le t)).trans (ih.cons x)

theorem mem_sortBy {le : α → α → Bool} {l : List α} {a : α} :
    a ∈ sortBy le l ↔ a ∈ l :=
  (perm_sortBy le l).mem_iff

theorem pairwise_insertBy (le : α → α → Bool)
    (htot : ∀ a b, le a b = true ∨ le b a = true)
    (htrans : ∀ a b c, le a b = true → le b c = true → le a c = true)
    (x : α) (l : List α) (hl : l.Pairwise (fun a b => le a b = true)) :
    (insertBy le x l).Pairwise (fun a b => le a b = true) := by
  induction l with
  | nil => simp [insertBy]
  | cons y t ih =>
    rcases List.pairwise_cons.mp hl with ⟨hy, ht⟩
    simp only [insertBy]
    split
    · next hxy =>
      refine List.pairwise_cons.mpr ⟨?_, hl⟩
      intro z hz
      rcases List.mem_cons.mp hz with rfl | hz
      · exact hxy
      · exact htrans x y z hxy (hy z hz)
    · next hxy =>
      refine List.pairwise_cons.mpr ⟨?_, ih ht⟩
      intro z hz
      rcases List.mem_cons.mp ((perm_insertBy le x t).mem_iff.mp hz) with rfl | hz
      · rcases htot y z with h | h
        · exact h
        · exact absurd h hxy
      · exact hy z hz

theorem pairwise_sortBy (le : α → α → Bool)
    (htot : ∀ a b, le a b = true ∨ le b a = true)
    (htrans : ∀ a b c, le a b = true → le b c = true → le a c = true)
    (l : List α) : (sortBy le l).Pairwise (fun a b => le a b = true) := by
  induction l with
  | nil => simp [sortBy]
  | cons x t ih => exact pairwise_insertBy le htot htrans x (sortBy le t) ih

theorem date_ble_total (a b : Date) : Date.ble a b = true ∨ Date.ble b a = true := by
  simp only [Date.ble, decide_eq_true_eq]
  omega

theorem date_ble_trans (a b c : Date) (h1 : Date.ble a b = true)
    (h2 : Date.ble b c = true) : Date.ble a c = true := by
  simp only [Date.ble, decide_eq_true_eq] at h1 h2 ⊢
  omega

/-! ## Sum lemmas -/

theorem sumAmounts_nil : sumAmounts [] = 0 := rfl

theorem sumAmounts_cons (r : ExpenseRow) (l : List ExpenseRow) :
    sumAmounts (r :: l) = r.amount + sumAmounts l := by
  simp [sumAmounts]

theorem sumAmounts_nonneg (l : List ExpenseRow) (h : ∀ r ∈ l, 0 ≤ r.amount) :
    0 ≤ sumAmounts l := by
  refine List.sum_nonneg ?_
  intro x hx
  rcases List.mem_map.mp hx with ⟨r, hr, rfl⟩
  exact h r hr

theorem single_le_sumAmounts (l : List ExpenseRow) (h : ∀ r ∈ l, 0 ≤ r.amount)
    (r : ExpenseRow) (hr : r ∈ l) : r.amount ≤ sumAmounts l := by
  refine List.single_le_sum ?_ r.amount (List.mem_map.mpr ⟨r, hr, rfl⟩)
  intro x hx
  rcases List.mem_map.mp hx with ⟨u, hu, rfl⟩
  exact h u hu

theorem sumAmounts_filter_split (p : ExpenseRow → Bool) (l : List ExpenseRow) :
    sumAmounts (l.filter p) + sumAmounts (l.filter (fun r => !p r)) = sumAmounts l := by
  induction l with
  | nil => simp [sumAmounts]
  | cons x t ih =>
    cases hpx : p x with
    | true =>
      simp only [List.filter_cons, hpx, Bool.not_true, if_true, if_false, sumAmounts_cons]
      simp only [Bool.false_eq_true, if_false]
      linarith
    | false =>
      simp only [List.filter_cons, hpx, Bool.not_false, if_true, if_false, sumAmounts_cons]
      simp only [Bool.false_eq_true, if_false, if_true]
      linarith

/-- Partition of an expense sum along a duplicate-free list of category
identifiers: the per-category sums plus the sum over rows whose category is
not listed make up the whole sum. -/
theorem sumAmounts_ids_partition : ∀ (ids : List Nat), ids.Nodup → ∀ (l : List ExpenseRow),
    (ids.map (fun i => sumAmounts (l.filter (fun r => decide (r.categoryId = i))))).sum
      + sumAmounts (l.filter (fun r => decide (r.categoryId ∉ ids))) = sumAmounts l := by
  intro ids
  induction ids with
  | nil =>
    intro _ l
    have h : l.filter (fun r => decide (r.categoryId ∉ ([] : List Nat))) = l := by
      rw [List.filter_eq_self]
      intro a _
      simp
    simp [h]
  | cons i t ih =>
    intro hnd l
    rcases List.nodup_cons.mp hnd with ⟨hit, hndt⟩
    have hsplit := sumAmounts_filter_split (fun r => decide (r.categoryId = i)) l
    have hIH := ih hndt (l.filter (fun r => !decide (r.categoryId = i)))
    have hmap : t.map (fun j => sumAmounts
          ((l.filter (fun r => !decide (r.categoryId = i))).filter
            (fun r => decide (r.categoryId = j))))
        = t.map (fun j => sumAmounts (l.filter (fun r => decide (r.categoryId = j)))) := by
      apply List.map_congr_left
      intro j hj
      have hji : j ≠ i := by
        rintro rfl
        exact hit hj
      congr 1
      rw [List.filter_filter]
      apply List.filter_congr
      intro r _
      by_cases hr : r.categoryId = j
      · simp [hr, hji]
      · simp [hr]
    have hrest : (l.filter (fun r => !decide (r.categoryId = i))).filter
          (fun r => decide (r.categoryId ∉ t))
        = l.filter (fun r => decide (r.categoryId ∉ i :: t)) := by
      rw [List.filter_filter]
      apply List.filter_congr
      intro r _
      by_cases h1 : r.categoryId = i <;> by_cases h2 : r.categoryId ∈ t <;>
        simp [h1, h2, List.mem_cons]
    rw [hmap, hrest] at hIH
    simp only [List.map_cons, List.sum_cons]
    linarith

/-- The per-category sums alone never exceed the whole sum when amounts are
nonnegative. -/
theorem sumAmounts_ids_le (ids : List Nat) (hnd : ids.Nodup) (l : List ExpenseRow)
    (hpos : ∀ r ∈ l, 0 ≤ r.amount) :
    (ids.map (fun i => sumAmounts (l.filter (fun r => decide (r.categoryId = i))))).sum
      ≤ sumAmounts l := by
  have h := sumAmounts_ids_partition ids hnd l
  have h2 : 0 ≤ sumAmounts (l.filter (fun r => decide (r.categoryId ∉ ids))) := by
    refine sumAmounts_nonneg _ ?_
    intro r hr
    exact hpos r (List.mem_filter.mp hr).1
  linarith

/-! ## Daily-trend loop lemmas -/

theorem daily_trend_loop_proj (g : List (Date × Nat × ℚ)) : ∀ acc : ℚ,
    (daily_trend_loop acc g).2.map (fun r => (r.date, r.transaction_count, r.daily_total))
      = g := by
  induction g with
  | nil => intro acc; simp [daily_trend_loop]
  | cons x t ih =>
    intro acc
    simp [daily_trend_loop, ih]

theorem daily_trend_loop_fst (g : List (Date × Nat × ℚ)) : ∀ acc : ℚ,
    (daily_trend_loop acc g).1 = acc + (g.map (fun x => x.2.2)).sum := by
  induction g with
  | nil => intro acc; simp [daily_trend_loop]
  | cons x t ih =>
    intro acc
    simp only [daily_trend_loop, ih, List.map_cons, List.sum_cons]
    ring

theorem daily_trend_loop_running (g : List (Date × Nat × ℚ)) : ∀ (acc : ℚ) (i : Nat)
    (h : i < (daily_trend_loop acc g).2.length),
    ((daily_trend_loop acc g).2.get ⟨i, h⟩).running_total
      = acc + (((daily_trend_loop acc g).2.take (i + 1)).map (fun r => r.daily_total)).sum := by
  induction g with
  | nil => intro acc i h; simp [daily_trend_loop] at h
  | cons x t ih =>
    intro acc i h
    cases i with
    | zero => simp [daily_trend_loop]
    | succ j =>
      have hj : j < (daily_trend_loop (acc + x.2.2) t).2.length := by
        simpa [daily_trend_loop] using h
      have := ih (acc + x.2.2) j hj
      simp only [daily_trend_loop, List.get_cons_succ, List.take_succ_cons, List.map_cons,
        List.sum_cons] at this ⊢
      rw [this]
      ring

theorem daily_trend_loop_getLastD (g : List (Date × Nat × ℚ)) : ∀ (acc : ℚ)
    (x0 : TrendRowRaw), g ≠ [] →
    (((daily_trend_loop acc g).2.getLastD x0).running_total)
      = acc + (g.map (fun v => v.2.2)).sum := by
  induction g with
  | nil => intro acc x0 h; exact absurd rfl h
  | cons x t ih =>
    intro acc x0 _
    cases t with
    | nil => simp [daily_trend_loop]
    | cons y u =>
      have hne : (y :: u) ≠ ([] : List (Date × Nat × ℚ)) := by simp
      have := ih (acc + x.2.2) ⟨x.1, x.2.1, x.2.2, acc + x.2.2⟩ hne
      simp only [daily_trend_loop, List.getLastD_cons, List.map_cons, List.sum_cons] at this ⊢
      rw [this]
      ring

/-! ## N-month trend loop lemmas -/

theorem get_trends_loop_length (l : Ledger) : ∀ (n : Nat) (ym : Nat × Nat),
    (get_trends_loop l ym n).length = n := by
  intro n
  induction n with
  | zero => intro ym; rfl
  | succ k ih => intro ym; simp [get_trends_loop, ih]

theorem get_trends_length (l : Ledger) (today : Date) (n : Nat) :
    (get_trends l today n).length = n := by
  simp [get_trends, get_trends_loop_length]

theorem get_trends_loop_months (l : Ledger) : ∀ (n : Nat) (ym : Nat × Nat),
    (get_trends_loop l ym n).map (fun t => (t.year, t.month))
      = (List.range n).map (fun j => monthBack^[j] ym) := by
  intro n
  induction n with
  | zero => intro ym; simp [get_trends_loop]
  | succ k ih =>
    intro ym
    rw [List.range_succ_eq_map]
    simp only [get_trends_loop, List.map_cons, ih (monthBack ym), List.map_map]
    constructor

/-! ## Digit-rendering lemmas -/

theorem natDigitsAux_zero (fuel : Nat) : natDigitsAux fuel 0 = [] := by
  cases fuel <;> rfl

theorem natDigitsAux_congr : ∀ f1 f2 n : Nat, n ≤ f1 → n ≤ f2 →
    natDigitsAux f1 n = natDigitsAux f2 n := by
  intro f1
  induction f1 with
  | zero =>
    intro f2 n h1 _
    interval_cases n
    rw [natDigitsAux_zero, natDigitsAux_zero]
  | succ f ih =>
    intro f2 n h1 h2
    cases f2 with
    | zero =>
      interval_cases n
      rw [natDigitsAux_zero, natDigitsAux_zero]
    | succ f2 =>
      cases n with
      | zero => rfl
      | succ k =>
        show (k + 1) % 10 :: natDigitsAux f ((k + 1) / 10)
            = (k + 1) % 10 :: natDigitsAux f2 ((k + 1) / 10)
        have hd : (k + 1) / 10 < k + 1 := Nat.div_lt_self (Nat.succ_pos k) (by norm_num)
        rw [ih f2 ((k + 1) / 10) (by omega) (by omega)]

theorem natDigits_succ (n : Nat) (h : n ≠ 0) :
    natDigits n = n % 10 :: natDigits (n / 10) := by
  cases n with
  | zero => exact absurd rfl h
  | succ k =>
    show (k + 1) % 10 :: natDigitsAux k ((k + 1) / 10) = _
    have hd : (k + 1) / 10 < k + 1 := Nat.div_lt_self (Nat.succ_pos k) (by norm_num)
    rw [natDigitsAux_congr k ((k + 1) / 10) ((k + 1) / 10) (by omega) le_rfl]
    rfl

theorem natDigits_lt_ten (n : Nat) : ∀ d ∈ natDigits n, d < 10 := by
  induction n using Nat.strong_induction_on with
  | _ n ih =>
    intro d hd
    rcases Nat.eq_zero_or_pos n with h | h
    · subst h
      simp [natDigits, natDigitsAux] at hd
    · rw [natDigits_succ n (Nat.pos_iff_ne_zero.mp h)] at hd
      rcases List.mem_cons.mp hd with rfl | hd
      · exact Nat.mod_lt n (by norm_num)
      · exact ih (n / 10) (Nat.div_lt_self h (by norm_num)) d hd

theorem digitVal_digitChar : ∀ d, d < 10 → digitVal (Nat.digitChar d) = d := by decide

theorem isDigitC_digitChar : ∀ d, d < 10 → isDigitC (Nat.digitChar d) = true := by decide

theorem foldr_natDigits (n : Nat) :
    (natDigits n).foldr (fun d a => a * 10 + digitVal (Nat.digitChar d)) 0 = n := by
  induction n using Nat.strong_induction_on with
  | _ n ih =>
    rcases Nat.eq_zero_or_pos n with h | h
    · subst h; rfl
    · rw [natDigits_succ n (Nat.pos_iff_ne_zero.mp h)]
      simp only [List.foldr_cons]
      rw [ih (n / 10) (Nat.div_lt_self h (by norm_num)),
        digitVal_digitChar _ (Nat.mod_lt n (by norm_num))]
      omega

theorem digitsVal_renderNat (n : Nat) : digitsVal (renderNat n) = n := by
  rcases Nat.eq_zero_or_pos n with h | h
  · subst h; rfl
  · unfold renderNat digitsVal
    rw [if_neg (by simp only [beq_iff_eq]; omega)]
    rw [List.foldl_map, List.foldl_reverse]
    exact foldr_natDigits n

theorem renderNat_all_digits (n : Nat) : ∀ c ∈ renderNat n, isDigitC c = true := by
  unfold renderNat
  split
  · intro c hc
    rcases List.mem_singleton.mp hc with rfl
    decide
  · intro c hc
    rcases List.mem_map.mp hc with ⟨d, hd, rfl⟩
    exact isDigitC_digitChar d (natDigits_lt_ten n d (List.mem_reverse.mp hd))

theorem pad2_all_digits (b : Nat) (h : b < 100) : ∀ c ∈ pad2 b, isDigitC c = true := by
  intro c hc
  rcases List.mem_cons.mp hc with rfl | hc
  · exact isDigitC_digitChar _ (by omega)
  · rcases List.mem_singleton.mp (by simpa using hc) with rfl
    exact isDigitC_digitChar _ (Nat.mod_lt b (by norm_num))

theorem digitsVal_pad2 (b : Nat) (h : b < 100) : digitsVal (pad2 b) = b := by
  unfold digitsVal pad2
  simp only [List.foldl_cons, List.foldl_nil]
  rw [digitVal_digitChar (b / 10) (by omega), digitVal_digitChar (b % 10) (Nat.mod_lt b (by norm_num))]
  omega

/-! ## Money rounding and formatting lemmas -/

theorem roundHalfUpCents_natDiv (n : Nat) : roundHalfUpCents ((n : ℚ) / 100) = n := by
  unfold roundHalfUpCents
  rw [if_pos (by positivity)]
  rw [div_mul_cancel₀ _ (by norm_num : (100 : ℚ) ≠ 0)]
  rw [Int.floor_eq_iff]
  constructor
  · push_cast; linarith
  · push_cast; linarith

theorem format_amount_natCents (n : Nat) : format_amount ((n : ℚ) / 100) = centsString n := by
  unfold format_amount centsString
  rw [roundHalfUpCents_natDiv]
  simp only [Int.natAbs_ofNat]
  rw [if_neg (by omega)]
  exact rfl

theorem format_amount_zero : format_amount 0 = "0.00" := by
  have h : (0 : ℚ) = ((0 : Nat) : ℚ) / 100 := by norm_num
  rw [h, format_amount_natCents]
  rfl

/-! ## Decimal-string parsing lemmas -/

theorem takeWhile_append_all {p : α → Bool} : ∀ (l1 l2 : List α),
    (∀ c ∈ l1, p c = true) →
    (l1 ++ l2).takeWhile p = l1 ++ l2.takeWhile p := by
  intro l1
  induction l1 with
  | nil => intro l2 _; rfl
  | cons x t ih =>
    intro l2 h
    rw [List.cons_append, List.takeWhile_cons, if_pos (h x (List.mem_cons_self x t))]
    rw [ih l2 (fun c hc => h c (List.mem_cons_of_mem x hc)), List.cons_append]

theorem dropWhile_append_all {p : α → Bool} : ∀ (l1 l2 : List α),
    (∀ c ∈ l1, p c = true) →
    (l1 ++ l2).dropWhile p = l2.dropWhile p := by
  intro l1
  induction l1 with
  | nil => intro l2 _; rfl
  | cons x t ih =>
    intro l2 h
    rw [List.cons_append, List.dropWhile_cons, if_pos (h x (List.mem_cons_self x t))]
    exact ih l2 (fun c hc => h c (List.mem_cons_of_mem x hc))

theorem centsString_toList (n : Nat) :
    (centsString n).toList = renderNat (n / 100) ++ '.' :: pad2 (n % 100) := by
  unfold centsString
  simp [String.toList, String.data_append]

theorem renderNat_ne_nil (n : Nat) : renderNat n ≠ [] := by
  unfold renderNat
  split
  · simp
  · next h =>
    have hne : n ≠ 0 := by simpa using h
    rw [natDigits_succ n hne]
    simp

/-- The canonical cents rendering parses back to its value with two
fractional digits. -/
theorem parseDecChars_centsString (n : Nat) :
    parseDecChars (centsString n).toList = some ((n : ℚ) / 100, 2) := by
  rcases hr : renderNat (n / 100) with _ | ⟨c, t⟩
  · exact absurd hr (renderNat_ne_nil (n / 100))
  have hdigits : ∀ x ∈ renderNat (n / 100), isDigitC x = true := renderNat_all_digits (n / 100)
  have hcd : isDigitC c = true := by
    apply hdigits
    rw [hr]
    exact List.mem_cons_self c t
  have hcs : (centsString n).toList = c :: (t ++ '.' :: pad2 (n % 100)) := by
    rw [centsString_toList, hr]
    rfl
  have hhead : (centsString n).toList.head? = some c := by
    rw [hcs]
    rfl
  have hcminus : ¬ c = '-' := by
    intro hceq
    rw [hceq] at hcd
    exact absurd hcd (by decide)
  have hcplus : ¬ c = '+' := by
    intro hceq
    rw [hceq] at hcd
    exact absurd hcd (by decide)
  have htake : (centsString n).toList.takeWhile isDigitC = renderNat (n / 100) := by
    rw [centsString_toList, takeWhile_append_all _ _ hdigits, List.takeWhile_cons,
      if_neg (by decide)]
    exact List.append_nil _
  have hdrop : (centsString n).toList.dropWhile isDigitC = '.' :: pad2 (n % 100) := by
    rw [centsString_toList, dropWhile_append_all _ _ hdigits, List.dropWhile_cons,
      if_neg (by decide)]
  have hmod : n % 100 < 100 := Nat.mod_lt n (by norm_num)
  have hall : (pad2 (n % 100)).all isDigitC = true :=
    List.all_eq_true.mpr (pad2_all_digits (n % 100) hmod)
  have hsgn : ¬((centsString n).toList.head? = some '-') := by
    rw [hhead]
    exact fun hx => hcminus (Option.some.inj hx)
  have hrest : ¬((centsString n).toList.head? = some '-'
      ∨ (centsString n).toList.head? = some '+') := by
    rw [hhead]
    rintro (hx | hx)
    · exact hcminus (Option.some.inj hx)
    · exact hcplus (Option.some.inj hx)
  simp only [parseDecChars]
  rw [if_neg hsgn, if_neg hrest]
  rw [htake, hdrop]
  rw [if_neg (by simp)]
  rw [if_pos ⟨rfl, by simpa using hall, fun hx => renderNat_ne_nil (n / 100) hx.1⟩]
  simp only [List.tail_cons, one_mul, pad2, List.length_cons, List.length_nil]
  rw [digitsVal_renderNat]
  have hdv : digitsVal [Nat.digitChar (n % 100 / 10), Nat.digitChar (n % 100 % 10)]
      = n % 100 := digitsVal_pad2 (n % 100) hmod
  rw [hdv]
  have hnm : (100 : ℚ) * ((n / 100 : ℕ) : ℚ) + ((n % 100 : ℕ) : ℚ) = (n : ℚ) := by
    exact_mod_cast congrArg (Nat.cast : ℕ → ℚ) (Nat.div_add_mod n 100)
  have hval : ((n / 100 : ℕ) : ℚ) + ((n % 100 : ℕ) : ℚ) / 10 ^ (0 + 1 + 1)
      = (n : ℚ) / 100 := by
    rw [eq_div_iff (by norm_num : (100 : ℚ) ≠ 0)]
    ring_nf
    ring_nf at hnm
    linarith
  rw [hval]

/-! ## Claim C3: period resolver contract -/

/-- C3.  Period resolver contract: for every input string, `validate_month`
fails exactly when the token does not match `^\d{4}-(0[1-9]|1[0-2])$` or
does not parse as a real calendar month; and for every valid token the
resolved range runs from the first day of the month to its last calendar
day (28/29/30/31 days, leap years respected), the bounds later used
inclusively by every range query. -/
theorem period_resolver_contract :
    (∀ s : String, validate_month s = true ↔
      (specMonthPattern s = true ∧ specRealCalendarMonth s = true)) ∧
    (∀ (s : String) (y m : Nat), validate_month s = true →
      parseMonthToken s = some (y, m) →
      get_month_date_range y m = (⟨y, m, 1⟩, ⟨y, m, daysInMonth y m⟩)) := by
  have hiff : ∀ s : String, validate_month s = true ↔
      (specMonthPattern s = true ∧ specRealCalendarMonth s = true) := by
    intro s
    unfold validate_month monthRegexMatch specMonthPattern specRealCalendarMonth parseMonthToken
    rcases hcs : s.toList with _ | ⟨c0, _ | ⟨c1, _ | ⟨c2, _ | ⟨c3, _ | ⟨c4, _ |
      ⟨c5, _ | ⟨c6, _ | ⟨c7, t⟩⟩⟩⟩⟩⟩⟩⟩ <;> simp only [Bool.and_eq_true, Bool.or_eq_true,
        beq_iff_eq, isDigitC, digitVal, decide_eq_true_eq] <;> try simp
    have h48 : ('0' : Char).toNat = 48 := rfl
    have h49 : ('1' : Char).toNat = 49 := rfl
    intro h0 h0' h1 h1' h2 h2' h3 h3' hd hm
    have hm1 : 48 ≤ c5.toNat ∧ c5.toNat ≤ 57 := by
      rcases hm with ⟨⟨rfl, _⟩, _⟩ | ⟨⟨rfl, _⟩, _⟩
      · exact ⟨by decide, by decide⟩
      · exact ⟨by decide, by decide⟩
    have hm2 : 48 ≤ c6.toNat ∧ c6.toNat ≤ 57 := by
      rcases hm with ⟨⟨_, h⟩, h'⟩ | ⟨⟨_, h⟩, h'⟩ <;> omega
    rw [if_pos (by tauto)]
    have hY : (((c0.toNat - 48) * 10 + (c1.toNat - 48)) * 10 + (c2.toNat - 48)) * 10
        + (c3.toNat - 48) ≤ 9999 := by omega
    have hM1 : 1 ≤ (c5.toNat - 48) * 10 + (c6.toNat - 48) := by
      rcases hm with ⟨⟨rfl, h⟩, h'⟩ | ⟨⟨rfl, h⟩, h'⟩ <;> omega
    have hM2 : (c5.toNat - 48) * 10 + (c6.toNat - 48) ≤ 12 := by
      rcases hm with ⟨⟨rfl, h⟩, h'⟩ | ⟨⟨rfl, h⟩, h'⟩ <;> omega
    simp [hY, hM1, hM2]
  refine ⟨hiff, ?_⟩
  intro s y m hv hp
  have hreal : specRealCalendarMonth s = true := ((hiff s).mp hv).2
  unfold specRealCalendarMonth at hreal
  rw [hp] at hreal
  simp only [Bool.and_eq_true, decide_eq_true_eq] at hreal
  rcases hreal with ⟨⟨⟨_, _⟩, hm1⟩, hm2⟩
  interval_cases m <;> simp [get_month_date_range, Date.pred, daysInMonth]

/-- C3 witness: the resolver accepts `2024-02` and resolves it to the
leap-year range `2024-02-01 .. 2024-02-29`; `2023-02` ends on the 28th. -/
theorem period_resolver_contract_witness :
    validate_month "2024-02" = true ∧
    get_month_date_range 2024 2 = (⟨2024, 2, 1⟩, ⟨2024, 2, 29⟩) ∧
    get_month_date_range 2023 2 = (⟨2023, 2, 1⟩, ⟨2023, 2, 28⟩) := by
  refine ⟨by decide, ?_, ?_⟩
  · have h := period_resolver_contract.2 "2024-02" 2024 2 (by decide) (by decide)
    simpa using h
  · have h := period_resolver_contract.2 "2023-02" 2023 2 (by decide) (by decide)
    simpa using h

/-! ## Claim C7: N-month trend count, cap and order -/

/-- C7 counterexample: the caller interface applies no cap at all, so a
request for 100 months yields 100 entries, refuting the claimed cap to a
sane maximum such as 24. -/
theorem trend_cap_counterexample :
    ¬ ((get_trends emptyLedger ⟨2025, 5, 1⟩ 100).length ≤ 24) := by
  rw [get_trends_length]
  omega

/-- C7 (amended).  The trend aggregator takes a months count defaulting to
6 and applies no cap: requesting N months returns exactly N entries ordered
oldest to newest, the most recent entry being the current calendar month
and each earlier entry one calendar month before the next, rolling the year
at January. -/
theorem trend_count_and_order (l : Ledger) (today : Date) (n : Nat) :
    trends_default_months = 6 ∧
    (get_trends l today n).length = n ∧
    (get_trends l today n).map (fun t => (t.year, t.month))
      = ((List.range n).map (fun j => monthBack^[j] (today.year, today.month))).reverse := by
  refine ⟨rfl, get_trends_length l today n, ?_⟩
  unfold get_trends
  rw [List.map_reverse, get_trends_loop_months]

/-! ## Claim C1: owner isolation of the report aggregations -/

/-- C1 is violated by the code: the report queries carry no `user_id`
condition, so two ledgers agreeing on every row of user 1 (and differing
only in a row of user 2) produce different summary records.  This theorem
evaluates the embedded aggregation at that failing input. -/
theorem owner_isolation_violated :
    ∃ (l1 l2 : Ledger) (s e : Date) (u : Nat),
      l1.expenses.filter (fun r => decide (r.userId = u))
          = l2.expenses.filter (fun r => decide (r.userId = u)) ∧
      l1.income = l2.income ∧
      l1.categories = l2.categories ∧
      monthly_summary_raw l1 s e ≠ monthly_summary_raw l2 s e := by
  refine ⟨emptyLedger, otherOwnerLedger, ⟨2024, 1, 1⟩, ⟨2024, 1, 31⟩, 1, by decide, rfl, rfl, ?_⟩
  intro h
  have hc := congrArg SummaryRaw.expenseCount h
  have h0 : (monthly_summary_raw emptyLedger ⟨2024, 1, 1⟩ ⟨2024, 1, 31⟩).expenseCount = 0 := by
    decide
  have h1 : (monthly_summary_raw otherOwnerLedger ⟨2024, 1, 1⟩ ⟨2024, 1, 31⟩).expenseCount
      = 1 := by decide
  omega

/-! ## Claim C2: monthly summary derived values -/

/-- C2.  For every ledger and range, the summary record satisfies
`net_spending = total_expense - total_split`,
`net_balance = total_income - net_spending`, and
`savings_rate = net_balance / total_income * 100` when `total_income > 0`
and `0` otherwise; and on the scenario ledger (expenses 10.00 and 20.00
with split total 5.00, income 50.00) the January 2024 summary has
`net_spending = 25.00`, `net_balance = 25.00`, `savings_rate = 50.0`. -/
theorem summary_derived_values :
    (∀ (l : Ledger) (s e : Date),
      (monthly_summary_raw l s e).netSpending
          = (monthly_summary_raw l s e).totalExpense - (monthly_summary_raw l s e).totalSplit ∧
      (monthly_summary_raw l s e).netBalance
          = (monthly_summary_raw l s e).totalIncome - (monthly_summary_raw l s e).netSpending ∧
      (0 < (monthly_summary_raw l s e).totalIncome →
        (monthly_summary_raw l s e).savingsRate
          = (monthly_summary_raw l s e).netBalance / (monthly_summary_raw l s e).totalIncome * 100) ∧
      (¬ 0 < (monthly_summary_raw l s e).totalIncome →
        (monthly_summary_raw l s e).savingsRate = 0)) ∧
    (monthly_summary_raw summaryScenarioLedger ⟨2024, 1, 1⟩ ⟨2024, 1, 31⟩).netSpending = 25 ∧
    (monthly_summary_raw summaryScenarioLedger ⟨2024, 1, 1⟩ ⟨2024, 1, 31⟩).netBalance = 25 ∧
    (monthly_summary_raw summaryScenarioLedger ⟨2024, 1, 1⟩ ⟨2024, 1, 31⟩).savingsRate = 50 := by
  have hexp : expensesInRange summaryScenarioLedger ⟨2024, 1, 1⟩ ⟨2024, 1, 31⟩
      = summaryScenarioLedger.expenses := by decide
  have hinc : incomeInRange summaryScenarioLedger ⟨2024, 1, 1⟩ ⟨2024, 1, 31⟩
      = summaryScenarioLedger.income := by decide
  refine ⟨?_, ?_, ?_, ?_⟩
  · intro l s e
    refine ⟨rfl, rfl, ?_, ?_⟩
    · intro h
      simp only [monthly_summary_raw] at h ⊢
      rw [if_pos h]
    · intro h
      simp only [monthly_summary_raw] at h ⊢
      rw [if_neg h]
  · simp only [monthly_summary_raw, hexp, hinc]
    simp only [summaryScenarioLedger, sumAmounts, sumSplits, sumIncome, List.map_cons,
      List.map_nil, List.sum_cons, List.sum_nil]
    norm_num
  · simp only [monthly_summary_raw, hexp, hinc]
    simp only [summaryScenarioLedger, sumAmounts, sumSplits, sumIncome, List.map_cons,
      List.map_nil, List.sum_cons, List.sum_nil]
    norm_num
  · simp only [monthly_summary_raw, hexp, hinc]
    simp only [summaryScenarioLedger, sumAmounts, sumSplits, sumIncome, List.map_cons,
      List.map_nil, List.sum_cons, List.sum_nil]
    norm_num

/-- C2 witness: the scenario ledger has positive income, so the theorem
instantiates to its savings-rate equation there. -/
theorem summary_derived_values_witness :
    0 < (monthly_summary_raw summaryScenarioLedger ⟨2024, 1, 1⟩ ⟨2024, 1, 31⟩).totalIncome ∧
    (monthly_summary_raw summaryScenarioLedger ⟨2024, 1, 1⟩ ⟨2024, 1, 31⟩).savingsRate
      = (monthly_summary_raw summaryScenarioLedger ⟨2024, 1, 1⟩ ⟨2024, 1, 31⟩).netBalance
        / (monthly_summary_raw summaryScenarioLedger ⟨2024, 1, 1⟩ ⟨2024, 1, 31⟩).totalIncome
        * 100 := by
  have hinc : incomeInRange summaryScenarioLedger ⟨2024, 1, 1⟩ ⟨2024, 1, 31⟩
      = summaryScenarioLedger.income := by decide
  have hpos : 0 < (monthly_summary_raw summaryScenarioLedger ⟨2024, 1, 1⟩
      ⟨2024, 1, 31⟩).totalIncome := by
    simp only [monthly_summary_raw, hinc]
    simp only [summaryScenarioLedger, sumIncome, List.map_cons, List.map_nil,
      List.sum_cons, List.sum_nil]
    norm_num
  exact ⟨hpos, (summary_derived_values.1 summaryScenarioLedger ⟨2024, 1, 1⟩
    ⟨2024, 1, 31⟩).2.2.1 hpos⟩

/-! ## Claim C5: daily trend running-total invariant -/

/-- C5.  The daily trend rows are sorted ascending by date, each running
total is the sum of the daily totals up to and including that row, the last
running total equals the sum of all daily totals in the output and is the
reported period total, and only dates with at least one expense appear. -/
theorem daily_trend_running_invariant (l : Ledger) (s e : Date) :
    (daily_trend_rows l s e).Pairwise (fun a b => Date.ble a.date b.date = true) ∧
    (∀ (i : Nat) (h : i < (daily_trend_rows l s e).length),
      ((daily_trend_rows l s e).get ⟨i, h⟩).running_total
        = (((daily_trend_rows l s e).take (i + 1)).map (fun r => r.daily_total)).sum) ∧
    (daily_trend_rows l s e ≠ [] →
      ((daily_trend_rows l s e).getLastD ⟨⟨0, 0, 0⟩, 0, 0, 0⟩).running_total
        = ((daily_trend_rows l s e).map (fun r => r.daily_total)).sum) ∧
    daily_trend_total l s e = ((daily_trend_rows l s e).map (fun r => r.daily_total)).sum ∧
    (∀ r ∈ daily_trend_rows l s e, 0 < r.transaction_count ∧
      ∃ x ∈ expensesInRange l s e, x.date = r.date) := by
  have hproj := daily_trend_loop_proj (daily_groups l s e) 0
  have hdt : (daily_trend_rows l s e).map (fun r => r.daily_total)
      = (daily_groups l s e).map (fun v => v.2.2) := by
    have h2 := congrArg (List.map (fun v : Date × Nat × ℚ => v.2.2)) hproj
    rw [List.map_map] at h2
    exact h2
  refine ⟨?_, ?_, ?_, ?_, ?_⟩
  · have hg : (daily_groups l s e).Pairwise (fun u v => Date.ble u.1 v.1 = true) := by
      unfold daily_groups
      rw [List.pairwise_map]
      exact pairwise_sortBy Date.ble date_ble_total date_ble_trans _
    rw [← hproj] at hg
    exact List.pairwise_map.mp hg
  · intro i h
    have := daily_trend_loop_running (daily_groups l s e) 0 i h
    simpa using this
  · intro hne
    have hgne : daily_groups l s e ≠ [] := by
      intro hg
      apply hne
      unfold daily_trend_rows
      rw [hg]
      rfl
    have := daily_trend_loop_getLastD (daily_groups l s e) 0 ⟨⟨0, 0, 0⟩, 0, 0, 0⟩ hgne
    rw [hdt]
    simpa using this
  · have := daily_trend_loop_fst (daily_groups l s e) 0
    rw [hdt]
    unfold daily_trend_total
    simpa using this
  · intro r hr
    have hmem : (r.date, r.transaction_count, r.daily_total)
        ∈ (daily_groups l s e) := by
      rw [← hproj]
      exact List.mem_map_of_mem _ hr
    unfold daily_groups at hmem
    rcases List.mem_map.mp hmem with ⟨d, hd, heq⟩
    have hdate : r.date = d := (congrArg Prod.fst heq).symm
    have hcount : r.transaction_count
        = ((expensesInRange l s e).filter (fun x => decide (x.date = d))).length := by
      have := congrArg (fun p : Date × Nat × ℚ => p.2.1) heq
      simpa using this.symm
    have hd2 : d ∈ ((expensesInRange l s e).map (fun x => x.date)).dedup :=
      mem_sortBy.mp hd
    rcases List.mem_map.mp (List.mem_dedup.mp hd2) with ⟨x, hx, hxd⟩
    constructor
    · rw [hcount]
      apply List.length_pos.mpr
      apply List.ne_nil_of_mem (a := x)
      rw [List.mem_filter]
      exact ⟨hx, by simp [hxd]⟩
    · exact ⟨x, hx, by rw [hxd, hdate]⟩

/-- C5 witness: on a one-expense ledger the trend output is nonempty, its
single running total is the daily total sum, and row 0 carries it. -/
theorem daily_trend_running_invariant_witness :
    (daily_trend_rows breakdownWitnessLedger ⟨2024, 1, 1⟩ ⟨2024, 1, 31⟩ ≠ []) ∧
    ((daily_trend_rows breakdownWitnessLedger ⟨2024, 1, 1⟩ ⟨2024, 1, 31⟩).getLastD
        ⟨⟨0, 0, 0⟩, 0, 0, 0⟩).running_total
      = ((daily_trend_rows breakdownWitnessLedger ⟨2024, 1, 1⟩ ⟨2024, 1, 31⟩).map
          (fun r => r.daily_total)).sum ∧
    (0 < (daily_trend_rows breakdownWitnessLedger ⟨2024, 1, 1⟩ ⟨2024, 1, 31⟩).length) := by
  have hne : daily_trend_rows breakdownWitnessLedger ⟨2024, 1, 1⟩ ⟨2024, 1, 31⟩ ≠ [] := by
    decide
  refine ⟨hne, (daily_trend_running_invariant breakdownWitnessLedger
    ⟨2024, 1, 1⟩ ⟨2024, 1, 31⟩).2.2.1 hne, by decide⟩

/-! ## Claim C6: insights day count and projection -/

theorem daysInMonth_pos (y m : Nat) : 0 < daysInMonth y m := by
  unfold daysInMonth
  split
  · split <;> norm_num
  · split <;> norm_num

/-- C6.  With the current date injected, `days_passed` is `today.day`
inside the target month, `days_in_month` after the whole target month, and
the defensive `1` otherwise; `daily_average = current_total / days_passed`
and `projected_total = daily_average * days_in_month`; and on the scenario
(30-day month, day 10, 100.00 spent) the average is 10.00 and the
projection 300.00. -/
theorem insights_days_and_projection (l : Ledger) (today : Date) (y m : Nat)
    (hd : 1 ≤ today.day) :
    ((today.year = y ∧ today.month = m) →
      (get_insights_raw l today y m).days_passed = today.day) ∧
    (¬(today.year = y ∧ today.month = m) →
      Date.blt ⟨y, m, daysInMonth y m⟩ today = true →
      (get_insights_raw l today y m).days_passed = daysInMonth y m) ∧
    (¬(today.year = y ∧ today.month = m) →
      ¬ Date.blt ⟨y, m, daysInMonth y m⟩ today = true →
      (get_insights_raw l today y m).days_passed = 1) ∧
    (get_insights_raw l today y m).days_in_month = daysInMonth y m ∧
    (get_insights_raw l today y m).daily_average
      = (get_insights_raw l today y m).current_total
        / ((get_insights_raw l today y m).days_passed : ℚ) ∧
    (get_insights_raw l today y m).projected_total
      = (get_insights_raw l today y m).daily_average
        * ((get_insights_raw l today y m).days_in_month : ℚ) ∧
    (get_insights_raw insightsScenarioLedger ⟨2024, 6, 10⟩ 2024 6).daily_average = 10 ∧
    (get_insights_raw insightsScenarioLedger ⟨2024, 6, 10⟩ 2024 6).projected_total = 300 := by
  have hdp : 0 < (get_insights_raw l today y m).days_passed := by
    simp only [get_insights_raw]
    split
    · omega
    · split
      · exact daysInMonth_pos y m
      · omega
  have hscenario :
      (get_insights_raw insightsScenarioLedger ⟨2024, 6, 10⟩ 2024 6).daily_average = 10 ∧
      (get_insights_raw insightsScenarioLedger ⟨2024, 6, 10⟩ 2024 6).projected_total = 300 := by
    have hr6 : get_month_date_range 2024 6 = (⟨2024, 6, 1⟩, ⟨2024, 6, 30⟩) := by decide
    have hx6 : expensesInRange insightsScenarioLedger ⟨2024, 6, 1⟩ ⟨2024, 6, 30⟩
        = insightsScenarioLedger.expenses := by decide
    constructor
    · simp only [get_insights_raw, hr6, hx6]
      simp only [insightsScenarioLedger, sumAmounts, List.map_cons, List.map_nil,
        List.sum_cons, List.sum_nil]
      norm_num [daysInMonth, isLeap]
    · simp only [get_insights_raw, hr6, hx6]
      simp only [insightsScenarioLedger, sumAmounts, List.map_cons, List.map_nil,
        List.sum_cons, List.sum_nil]
      norm_num [daysInMonth, isLeap]
  refine ⟨?_, ?_, ?_, rfl, ?_, rfl, hscenario.1, hscenario.2⟩
  · intro h
    simp only [get_insights_raw]
    rw [if_pos]
    simp [h.1, h.2]
  · intro hne hblt
    simp only [get_insights_raw]
    rw [if_neg, if_pos hblt]
    simp only [Bool.and_eq_true, beq_iff_eq, not_and]
    intro h1 h2
    exact hne ⟨h1, h2⟩
  · intro hne hblt
    simp only [get_insights_raw]
    rw [if_neg, if_neg hblt]
    simp only [Bool.and_eq_true, beq_iff_eq, not_and]
    intro h1 h2
    exact hne ⟨h1, h2⟩
  · have h := hdp
    simp only [get_insights_raw] at h ⊢
    rw [if_pos h]

/-- C6 witness: with day 10 of June 2024 as the current date and June 2024
as the target month, the theorem yields `days_passed = 10`. -/
theorem insights_days_and_projection_witness :
    1 ≤ (⟨2024, 6, 10⟩ : Date).day ∧
    (get_insights_raw insightsScenarioLedger ⟨2024, 6, 10⟩ 2024 6).days_passed = 10 := by
  refine ⟨by decide, ?_⟩
  have h := (insights_days_and_projection insightsScenarioLedger ⟨2024, 6, 10⟩ 2024 6
    (by decide)).1 ⟨rfl, rfl⟩
  simpa using h

/-! ## Claim C4: category breakdown semantics -/

theorem sum_map_sortBy (le : α → α → Bool) (l : List α) (f : α → ℚ) :
    ((sortBy le l).map f).sum = (l.map f).sum :=
  ((perm_sortBy le l).map f).sum_eq

theorem sum_map_zero (l : List α) : (l.map (fun _ => (0 : ℚ))).sum = 0 := by
  induction l with
  | nil => rfl
  | cons x t ih => simp [ih]

/-- C4.  Every active category appears in the breakdown even with zero
matching expenses (left-join semantics); each percentage follows the
`total_amount / grand_total * 100` rule with a zero guard; rows are sorted
descending by `total_amount`; and all percentages are nonnegative with
their sum bounded by 100. -/
theorem category_breakdown_semantics (l : Ledger) (s e : Date)
    (hpos : ∀ r ∈ l.expenses, 0 ≤ r.amount)
    (hnd : (l.categories.map (fun c => c.id)).Nodup) :
    (∀ c ∈ l.categories, c.isActive = true →
      ∃ row ∈ category_breakdown_rows l s e,
        row.category_id = c.id ∧ row.category_name = c.name ∧
        row.transaction_count = (matchingExpenses l s e c.id).length ∧
        row.total_amount = sumAmounts (matchingExpenses l s e c.id)) ∧
    (∀ row ∈ category_breakdown_rows l s e,
      row.percentage = if 0 < category_breakdown_total l s e then
        row.total_amount / category_breakdown_total l s e * 100 else 0) ∧
    (category_breakdown_rows l s e).Pairwise
      (fun a b => b.total_amount ≤ a.total_amount) ∧
    (∀ row ∈ category_breakdown_rows l s e, 0 ≤ row.percentage) ∧
    ((category_breakdown_rows l s e).map (fun row => row.percentage)).sum ≤ 100 := by
  have heq : category_breakdown_rows l s e
      = (sortBy (fun a b => decide (b.total_amount ≤ a.total_amount))
          ((l.categories.filter (fun c => c.isActive)).map (fun c =>
            ({ category_id := c.id
               category_name := c.name
               transaction_count := (matchingExpenses l s e c.id).length
               total_amount := sumAmounts (matchingExpenses l s e c.id)
               percentage := 0 } : BreakdownRowRaw)))).map (fun row =>
        { row with percentage := if 0 < category_breakdown_total l s e then
            row.total_amount / category_breakdown_total l s e * 100 else 0 }) := rfl
  have hposR : ∀ r ∈ expensesInRange l s e, 0 ≤ r.amount := by
    intro r hr
    exact hpos r (List.mem_filter.mp hr).1
  have hrow_nonneg : ∀ cid, 0 ≤ sumAmounts (matchingExpenses l s e cid) := by
    intro cid
    refine sumAmounts_nonneg _ ?_
    intro r hr
    exact hposR r (List.mem_filter.mp hr).1
  have hmem_shape : ∀ row ∈ category_breakdown_rows l s e,
      ∃ c ∈ l.categories, c.isActive = true ∧
        row.category_id = c.id ∧ row.category_name = c.name ∧
        row.transaction_count = (matchingExpenses l s e c.id).length ∧
        row.total_amount = sumAmounts (matchingExpenses l s e c.id) ∧
        row.percentage = (if 0 < category_breakdown_total l s e then
          row.total_amount / category_breakdown_total l s e * 100 else 0) := by
    intro row hrow
    rw [heq] at hrow
    rcases List.mem_map.mp hrow with ⟨r0, hr0, rfl⟩
    rcases List.mem_map.mp (mem_sortBy.mp hr0) with ⟨c, hc, rfl⟩
    rcases List.mem_filter.mp hc with ⟨hcl, hact⟩
    exact ⟨c, hcl, hact, rfl, rfl, rfl, rfl, rfl⟩
  refine ⟨?_, ?_, ?_, ?_, ?_⟩
  · intro c hc hact
    have h1 : c ∈ l.categories.filter (fun c => c.isActive) :=
      List.mem_filter.mpr ⟨hc, hact⟩
    have h2 := List.mem_map_of_mem (fun c : Category =>
      ({ category_id := c.id
         category_name := c.name
         transaction_count := (matchingExpenses l s e c.id).length
         total_amount := sumAmounts (matchingExpenses l s e c.id)
         percentage := 0 } : BreakdownRowRaw)) h1
    have h3 := List.mem_map_of_mem (fun row : BreakdownRowRaw =>
      { row with percentage := if 0 < category_breakdown_total l s e then
          row.total_amount / category_breakdown_total l s e * 100 else 0 }) h2
    have h4 : ({ category_id := c.id
                 category_name := c.name
                 transaction_count := (matchingExpenses l s e c.id).length
                 total_amount := sumAmounts (matchingExpenses l s e c.id)
                 percentage := if 0 < category_breakdown_total l s e then
                   sumAmounts (matchingExpenses l s e c.id)
                     / category_breakdown_total l s e * 100 else 0 } : BreakdownRowRaw)
        ∈ category_breakdown_rows l s e := by
      rw [heq]
      exact (((perm_sortBy _ _).map _).mem_iff).mpr h3
    exact ⟨_, h4, rfl, rfl, rfl, rfl⟩
  · intro row hrow
    rcases hmem_shape row hrow with ⟨c, _, _, _, _, _, _, hp⟩
    exact hp
  · rw [heq]
    have hsorted := pairwise_sortBy (fun a b : BreakdownRowRaw =>
        decide (b.total_amount ≤ a.total_amount))
      (fun a b => by
        rcases le_total b.total_amount a.total_amount with h | h
        · exact Or.inl (decide_eq_true h)
        · exact Or.inr (decide_eq_true h))
      (fun a b c h1 h2 => decide_eq_true
        (le_trans (of_decide_eq_true h2) (of_decide_eq_true h1)))
      ((l.categories.filter (fun c => c.isActive)).map (fun c =>
        ({ category_id := c.id
           category_name := c.name
           transaction_count := (matchingExpenses l s e c.id).length
           total_amount := sumAmounts (matchingExpenses l s e c.id)
           percentage := 0 } : BreakdownRowRaw)))
    rw [List.pairwise_map]
    exact hsorted.imp (fun h => of_decide_eq_true h)
  · intro row hrow
    rcases hmem_shape row hrow with ⟨c, _, _, _, _, _, htot, hp⟩
    rw [hp]
    split
    · next hT2 =>
      have h0 : 0 ≤ row.total_amount := by
        rw [htot]
        exact hrow_nonneg c.id
      exact mul_nonneg (div_nonneg h0 (le_of_lt hT2)) (by norm_num)
    · exact le_rfl
  · have hpct : (category_breakdown_rows l s e).map (fun row => row.percentage)
        = (category_breakdown_rows l s e).map (fun row =>
            if 0 < category_breakdown_total l s e then
              row.total_amount / category_breakdown_total l s e * 100 else 0) :=
      List.map_congr_left (fun row hrow => by
        rcases hmem_shape row hrow with ⟨c, _, _, _, _, _, _, hp⟩
        exact hp)
    rw [hpct]
    by_cases hT : 0 < category_breakdown_total l s e
    · have h1 : (category_breakdown_rows l s e).map (fun row =>
            if 0 < category_breakdown_total l s e then
              row.total_amount / category_breakdown_total l s e * 100 else 0)
          = (category_breakdown_rows l s e).map (fun row =>
              row.total_amount * (100 / category_breakdown_total l s e)) :=
        List.map_congr_left (fun row _ => by
          rw [if_pos hT, div_mul_eq_mul_div, mul_div_assoc])
      rw [h1, List.sum_map_mul_right]
      have hids : ((l.categories.filter (fun c => c.isActive)).map (fun c => c.id)).Nodup := by
        apply hnd.sublist
        exact (List.filter_sublist l.categories).map _
      have hle : ((category_breakdown_rows l s e).map (fun row => row.total_amount)).sum
          ≤ category_breakdown_total l s e := by
        have hsum : ((category_breakdown_rows l s e).map (fun row => row.total_amount)).sum
            = (((l.categories.filter (fun c => c.isActive)).map (fun c => c.id)).map
                (fun i => sumAmounts ((expensesInRange l s e).filter
                  (fun r => decide (r.categoryId = i))))).sum := by
          rw [heq, List.map_map, sum_map_sortBy, List.map_map, List.map_map]
          rfl
        rw [hsum]
        exact sumAmounts_ids_le _ hids _ hposR
      calc ((category_breakdown_rows l s e).map (fun row => row.total_amount)).sum
            * (100 / category_breakdown_total l s e)
          ≤ category_breakdown_total l s e * (100 / category_breakdown_total l s e) := by
            apply mul_le_mul_of_nonneg_right hle
            positivity
        _ = 100 := by
            rw [mul_comm, div_mul_cancel₀]
            exact ne_of_gt hT
    · have h0 : (category_breakdown_rows l s e).map (fun row =>
            if 0 < category_breakdown_total l s e then
              row.total_amount / category_breakdown_total l s e * 100 else 0)
          = (category_breakdown_rows l s e).map (fun _ => (0 : ℚ)) :=
        List.map_congr_left (fun row _ => by rw [if_neg hT])
      rw [h0, sum_map_zero]
      norm_num

/-- C4 witness: on a concrete one-category ledger the hypotheses hold and
the active category appears in the breakdown. -/
theorem category_breakdown_semantics_witness :
    (∀ r ∈ breakdownWitnessLedger.expenses, 0 ≤ r.amount) ∧
    (breakdownWitnessLedger.categories.map (fun c => c.id)).Nodup ∧
    ∃ row ∈ category_breakdown_rows breakdownWitnessLedger ⟨2024, 1, 1⟩ ⟨2024, 1, 31⟩,
      row.category_id = 7 := by
  refine ⟨by decide, by decide, ?_⟩
  have h := (category_breakdown_semantics breakdownWitnessLedger ⟨2024, 1, 1⟩ ⟨2024, 1, 31⟩
    (by decide) (by decide)).1 ⟨7, 1, "Food", true⟩ (by decide) (by decide)
  rcases h with ⟨row, hrow, hid, _⟩
  exact ⟨row, hrow, hid⟩

/-! ## Claim C10: breakdown denominator includes unlisted spend -/

/-- Every breakdown row stems from an active category and carries that
category's statistics and the percentage rule. -/
theorem category_breakdown_rows_shape (l : Ledger) (s e : Date) :
    ∀ row ∈ category_breakdown_rows l s e,
      ∃ c ∈ l.categories, c.isActive = true ∧
        row.category_id = c.id ∧ row.category_name = c.name ∧
        row.transaction_count = (matchingExpenses l s e c.id).length ∧
        row.total_amount = sumAmounts (matchingExpenses l s e c.id) ∧
        row.percentage = (if 0 < category_breakdown_total l s e then
          row.total_amount / category_breakdown_total l s e * 100 else 0) := by
  intro row hrow
  rcases List.mem_map.mp hrow with ⟨r0, hr0, rfl⟩
  rcases List.mem_map.mp (mem_sortBy.mp hr0) with ⟨c, hc, rfl⟩
  rcases List.mem_filter.mp hc with ⟨hcl, hact⟩
  exact ⟨c, hcl, hact, rfl, rfl, rfl, rfl, rfl⟩

/-- The listed row totals sum to the per-active-category sums. -/
theorem category_breakdown_sum_totals (l : Ledger) (s e : Date) :
    ((category_breakdown_rows l s e).map (fun row => row.total_amount)).sum
      = (((l.categories.filter (fun c => c.isActive)).map (fun c => c.id)).map
          (fun i => sumAmounts ((expensesInRange l s e).filter
            (fun r => decide (r.categoryId = i))))).sum := by
  show (((sortBy (fun a b => decide (b.total_amount ≤ a.total_amount))
      ((l.categories.filter (fun c => c.isActive)).map (fun c =>
        ({ category_id := c.id
           category_name := c.name
           transaction_count := (matchingExpenses l s e c.id).length
           total_amount := sumAmounts (matchingExpenses l s e c.id)
           percentage := 0 } : BreakdownRowRaw)))).map (fun row =>
        { row with percentage := if 0 < category_breakdown_total l s e then
            row.total_amount / category_breakdown_total l s e * 100 else 0 })).map
      (fun row => row.total_amount)).sum = _
  rw [List.map_map, sum_map_sortBy, List.map_map, List.map_map]
  rfl

/-- The percentage sum scales the row-total sum by `100 / grand_total`
when the grand total is positive. -/
theorem category_breakdown_pct_sum (l : Ledger) (s e : Date)
    (hT : 0 < category_breakdown_total l s e) :
    ((category_breakdown_rows l s e).map (fun row => row.percentage)).sum
      = ((category_breakdown_rows l s e).map (fun row => row.total_amount)).sum
        * (100 / category_breakdown_total l s e) := by
  have hpct : (category_breakdown_rows l s e).map (fun row => row.percentage)
      = (category_breakdown_rows l s e).map (fun row =>
          row.total_amount * (100 / category_breakdown_total l s e)) :=
    List.map_congr_left (fun row hrow => by
      rcases category_breakdown_rows_shape l s e row hrow with ⟨c, _, _, _, _, _, _, hp⟩
      rw [hp, if_pos hT, div_mul_eq_mul_div, mul_div_assoc])
  rw [hpct, List.sum_map_mul_right]

/-- C10.  The breakdown denominator counts every expense in range,
including those of inactive or unknown categories, while only active
categories are listed: the listed totals never exceed the grand total, and
whenever some in-range expense has no active category the listed
percentages sum to strictly less than 100. -/
theorem breakdown_denominator_unlisted (l : Ledger) (s e : Date)
    (hpos : ∀ r ∈ l.expenses, 0 < r.amount)
    (hnd : (l.categories.map (fun c => c.id)).Nodup) :
    category_breakdown_total l s e = sumAmounts (expensesInRange l s e) ∧
    (∀ row ∈ category_breakdown_rows l s e,
      ∃ c ∈ l.categories, c.isActive = true ∧ row.category_id = c.id) ∧
    ((category_breakdown_rows l s e).map (fun row => row.total_amount)).sum
      ≤ category_breakdown_total l s e ∧
    (∀ r ∈ expensesInRange l s e,
      (∀ c ∈ l.categories, c.isActive = true → c.id ≠ r.categoryId) →
      ((category_breakdown_rows l s e).map (fun row => row.percentage)).sum < 100) := by
  have hposR : ∀ x ∈ expensesInRange l s e, 0 ≤ x.amount := fun x hx =>
    le_of_lt (hpos x (List.mem_filter.mp hx).1)
  have hids : ((l.categories.filter (fun c => c.isActive)).map (fun c => c.id)).Nodup := by
    apply hnd.sublist
    exact (List.filter_sublist l.categories).map _
  have hpart := sumAmounts_ids_partition
    ((l.categories.filter (fun c => c.isActive)).map (fun c => c.id)) hids
    (expensesInRange l s e)
  have hsumle : ((category_breakdown_rows l s e).map (fun row => row.total_amount)).sum
      ≤ category_breakdown_total l s e := by
    rw [category_breakdown_sum_totals]
    exact sumAmounts_ids_le _ hids _ hposR
  refine ⟨rfl, ?_, hsumle, ?_⟩
  · intro row hrow
    rcases category_breakdown_rows_shape l s e row hrow with ⟨c, hcl, hact, hid, _⟩
    exact ⟨c, hcl, hact, hid⟩
  · intro r hr hbad
    have hnotin : r.categoryId ∉
        (l.categories.filter (fun c => c.isActive)).map (fun c => c.id) := by
      intro hmem
      rcases List.mem_map.mp hmem with ⟨c, hc, hcid⟩
      rcases List.mem_filter.mp hc with ⟨hcl, hact⟩
      exact hbad c hcl hact hcid
    have hrest : r.amount ≤ sumAmounts ((expensesInRange l s e).filter
        (fun x => decide (x.categoryId ∉
          (l.categories.filter (fun c => c.isActive)).map (fun c => c.id)))) := by
      apply single_le_sumAmounts
      · intro x hx
        exact hposR x (List.mem_filter.mp hx).1
      · exact List.mem_filter.mpr ⟨hr, by simpa using hnotin⟩
    have hra : 0 < r.amount := hpos r (List.mem_filter.mp hr).1
    have hSnn : 0 ≤ (((l.categories.filter (fun c => c.isActive)).map (fun c => c.id)).map
        (fun i => sumAmounts ((expensesInRange l s e).filter
          (fun x => decide (x.categoryId = i))))).sum := by
      apply List.sum_nonneg
      intro x hx
      rcases List.mem_map.mp hx with ⟨i, _, rfl⟩
      refine sumAmounts_nonneg _ ?_
      intro u hu
      exact hposR u (List.mem_filter.mp hu).1
    have hT : 0 < category_breakdown_total l s e := by
      show 0 < sumAmounts (expensesInRange l s e)
      rw [← hpart]
      linarith
    have hlt : ((category_breakdown_rows l s e).map (fun row => row.total_amount)).sum
        < category_breakdown_total l s e := by
      rw [category_breakdown_sum_totals]
      show _ < sumAmounts (expensesInRange l s e)
      linarith
    rw [category_breakdown_pct_sum l s e hT]
    calc ((category_breakdown_rows l s e).map (fun row => row.total_amount)).sum
          * (100 / category_breakdown_total l s e)
        < category_breakdown_total l s e * (100 / category_breakdown_total l s e) := by
          apply mul_lt_mul_of_pos_right hlt
          positivity
      _ = 100 := by
          rw [mul_comm, div_mul_cancel₀]
          exact ne_of_gt hT

/-- C10 witness: with a 10.00 expense in the active category and a 5.00
expense in an inactive one, the listed percentages sum below 100. -/
theorem breakdown_denominator_unlisted_witness :
    (∀ r ∈ unlistedSpendLedger.expenses, 0 < r.amount) ∧
    ((category_breakdown_rows unlistedSpendLedger ⟨2024, 1, 1⟩ ⟨2024, 1, 31⟩).map
      (fun row => row.percentage)).sum < 100 := by
  refine ⟨by decide, ?_⟩
  exact (breakdown_denominator_unlisted unlistedSpendLedger ⟨2024, 1, 1⟩ ⟨2024, 1, 31⟩
    (by decide) (by decide)).2.2.2
    { userId := 1, date := ⟨2024, 1, 6⟩, amount := 5, splitAmount := 0, categoryId := 9 }
    (by decide) (by decide)

/-! ## Claim C8: zero-range safety -/

/-- C8.  For a valid month token over a ledger with no transactions in the
resolved range, the summary, breakdown and daily-trend endpoints all
succeed, with every count equal to 0 and every monetary field formatted as
the string `0.00`. -/
theorem zero_range_safety (l : Ledger) (month : String) (y m : Nat)
    (hv : validate_month month = true)
    (hp : parseMonthToken month = some (y, m))
    (hE : ∀ r ∈ l.expenses,
      inRange (get_month_date_range y m).1 (get_month_date_range y m).2 r.date = false)
    (hI : ∀ r ∈ l.income,
      inRange (get_month_date_range y m).1 (get_month_date_range y m).2 r.date = false) :
    monthly_summary l month = some
      { start_date := (get_month_date_range y m).1
        end_date := (get_month_date_range y m).2
        expense_count := 0
        total_expense := "0.00"
        total_owed := "0.00"
        net_spending := "0.00"
        average_expense := "0.00"
        min_expense := "0.00"
        max_expense := "0.00"
        income_count := 0
        total_income := "0.00"
        net_balance := "0.00"
        savings_rate := "0.00" } ∧
    (∃ rep, category_breakdown l month = some rep ∧
      rep.total_amount = "0.00" ∧
      ∀ row ∈ rep.categories, row.transaction_count = 0 ∧
        row.total_amount = "0.00" ∧ row.percentage = "0.00") ∧
    daily_trend l month = some
      { start_date := (get_month_date_range y m).1
        end_date := (get_month_date_range y m).2
        total_amount := "0.00"
        days_with_expenses := 0
        daily_data := [] } := by
  have hexp : expensesInRange l (get_month_date_range y m).1 (get_month_date_range y m).2
      = [] := by
    unfold expensesInRange
    rw [List.filter_eq_nil_iff]
    intro a ha
    rw [hE a ha]
    simp
  have hinc : incomeInRange l (get_month_date_range y m).1 (get_month_date_range y m).2
      = [] := by
    unfold incomeInRange
    rw [List.filter_eq_nil_iff]
    intro a ha
    rw [hI a ha]
    simp
  have htot : category_breakdown_total l (get_month_date_range y m).1
      (get_month_date_range y m).2 = 0 := by
    unfold category_breakdown_total
    rw [hexp]
    rfl
  refine ⟨?_, ?_, ?_⟩
  · unfold monthly_summary
    rw [if_pos hv, hp]
    simp only [monthly_summary_raw, hexp, hinc, List.length_nil, List.map_nil,
      sumAmounts, sumSplits, sumIncome, List.sum_nil, sqlMin, sqlMax]
    simp [format_amount_zero]
  · unfold category_breakdown
    rw [if_pos hv, hp]
    refine ⟨_, rfl, ?_, ?_⟩
    · simp only [htot, format_amount_zero]
    · intro row hrow
      rcases List.mem_map.mp hrow with ⟨r0, hr0, rfl⟩
      rcases category_breakdown_rows_shape l _ _ r0 hr0 with
        ⟨c, _, _, _, _, hcount, htotal, hpct⟩
      have hmatch : matchingExpenses l (get_month_date_range y m).1
          (get_month_date_range y m).2 c.id = [] := by
        unfold matchingExpenses
        rw [hexp]
        rfl
      have h1 : r0.transaction_count = 0 := by
        rw [hcount, hmatch]
        rfl
      have h2 : r0.total_amount = 0 := by
        rw [htotal, hmatch]
        rfl
      have h3 : r0.percentage = 0 := by
        rw [hpct, htot]
        simp
      refine ⟨h1, ?_, ?_⟩
      · simp only [h2, format_amount_zero]
      · simp only [h3, format_amount_zero]
  · unfold daily_trend
    rw [if_pos hv, hp]
    have hgroups : daily_groups l (get_month_date_range y m).1
        (get_month_date_range y m).2 = [] := by
      unfold daily_groups
      rw [hexp]
      rfl
    have hrows : daily_trend_rows l (get_month_date_range y m).1
        (get_month_date_range y m).2 = [] := by
      unfold daily_trend_rows
      rw [hgroups]
      rfl
    have htotal : daily_trend_total l (get_month_date_range y m).1
        (get_month_date_range y m).2 = 0 := by
      unfold daily_trend_total
      rw [hgroups]
      rfl
    simp [hrows, htotal, format_amount_zero]

/-- C8 witness: the empty ledger with token `2024-01` yields the all-zero
summary record. -/
theorem zero_range_safety_witness :
    validate_month "2024-01" = true ∧
    monthly_summary emptyLedger "2024-01" = some
      { start_date := (get_month_date_range 2024 1).1
        end_date := (get_month_date_range 2024 1).2
        expense_count := 0
        total_expense := "0.00"
        total_owed := "0.00"
        net_spending := "0.00"
        average_expense := "0.00"
        min_expense := "0.00"
        max_expense := "0.00"
        income_count := 0
        total_income := "0.00"
        net_balance := "0.00"
        savings_rate := "0.00" } := by
  refine ⟨by decide, ?_⟩
  exact (zero_range_safety emptyLedger "2024-01" 2024 1 (by decide) (by decide)
    (by intro r hr; exact absurd hr (List.not_mem_nil r))
    (by intro r hr; exact absurd hr (List.not_mem_nil r))).1

/-! ## Claim C9: money round trip and exactness -/

/-- Parsing of the canonical cents string through `validate_amount`. -/
theorem validate_amount_centsString (n : Nat) (h : 0 < n) :
    validate_amount (centsString n) = some ((n : ℚ) / 100) := by
  have hn : (0 : ℚ) < (n : ℚ) / 100 := by
    have h2 : (0 : ℚ) < (n : ℚ) := by exact_mod_cast h
    positivity
  simp only [validate_amount, parseDecChars_centsString]
  rw [if_neg (not_le.mpr hn), if_neg (by norm_num : ¬(2 : ℕ) < 2)]
  rw [roundHalfUpCents_natDiv]
  norm_num

/-- C9.  Money round trip: every positive two-decimal amount string (the
canonical rendering `centsString n` of `n` cents, `n > 0`) is accepted by
`validate_amount` with its exact rational value, and `format_amount` maps
that value back to the identical string (for example `19.99`); and cent
arithmetic is exact: one hundred parsed `0.01` amounts sum to exactly `1`
and format as `1.00`. -/
theorem money_round_trip (n : Nat) (h : 0 < n) :
    validate_amount (centsString n) = some ((n : ℚ) / 100) ∧
    format_amount ((n : ℚ) / 100) = centsString n ∧
    centsString 1999 = "19.99" ∧
    validate_amount "0.01" = some ((1 : ℚ) / 100) ∧
    (List.replicate 100 ((1 : ℚ) / 100)).sum = 1 ∧
    format_amount ((List.replicate 100 ((1 : ℚ) / 100)).sum) = "1.00" := by
  have hsum : (List.replicate 100 ((1 : ℚ) / 100)).sum = 1 := by
    rw [List.sum_replicate, nsmul_eq_mul]
    norm_num
  have h001 : validate_amount "0.01" = some ((1 : ℚ) / 100) := by
    have hcs : centsString 1 = "0.01" := by decide
    rw [← hcs]
    simpa using validate_amount_centsString 1 (by norm_num)
  refine ⟨validate_amount_centsString n h, format_amount_natCents n, by decide, h001,
    hsum, ?_⟩
  rw [hsum]
  have h1 : (1 : ℚ) = ((100 : ℕ) : ℚ) / 100 := by norm_num
  rw [h1, format_amount_natCents]
  decide

/-- C9 witness: the round trip evaluated at `19.99`. -/
theorem money_round_trip_witness :
    0 < 1999 ∧ validate_amount "19.99" = some ((1999 : ℚ) / 100) ∧
    format_amount ((1999 : ℚ) / 100) = "19.99" := by
  have h := money_round_trip 1999 (by norm_num)
  have hcs : centsString 1999 = "19.99" := h.2.2.1
  refine ⟨by norm_num, ?_, ?_⟩
  · have h1 := h.1
    rw [hcs] at h1
    simpa using h1
  · have h2 := h.2.1
    rw [hcs] at h2
    simpa using h2

end ExpenseTracker
